import Mathlib

/-!
Verification of an Arti-style Tor client core against its specification.

This file shallowly embeds the parts of the code base that the checked
properties talk about:

  * the SHA3-256 based "disaster SRV" and HsDir ring-parameter derivation
    of crates/tor-netdir/src/hsdir_params.rs;
  * the onion-service circuit pool launcher and circuit-request entry
    points of crates/tor-circmgr/src/hspool.rs;
  * the task scheduler of crates/tor-rtcompat/src/scheduler.rs;
  * the sqlite-backed directory cache expiry of
    tor-dirmgr/src/storage/sqlite.rs;
  * the directory bootstrap helpers of tor-dirmgr/src/lib.rs;
  * the relay-cell encoder and decoder of tor-proto/src/relaycell/msg.rs.

Machine integers are modelled as Nat with explicit reductions modulo
2 to the relevant power where the original code can overflow or
truncate.  Fallible operations return Except.  Randomness (the padding
rng of relay-cell encoding) is modelled as an explicitly quantified
stream of bytes.
-/

set_option maxRecDepth 100000
set_option linter.unusedVariables false

deriving instance DecidableEq for Except

/-! ## Generic byte and list helpers -/

/-- Mask for 64-bit words. -/
def u64mask : Nat := 18446744073709551615

/-- Rotate a 64-bit word left by n bits (n at most 64). -/
def rotl64 (x n : Nat) : Nat :=
  ((x <<< n) ||| (x >>> (64 - n))) &&& u64mask

/-- Big-endian 8-byte encoding of a 64-bit value, as u64::to_be_bytes. -/
def be64 (n : Nat) : List Nat :=
  [(n >>> 56) &&& 255, (n >>> 48) &&& 255, (n >>> 40) &&& 255, (n >>> 32) &&& 255,
   (n >>> 24) &&& 255, (n >>> 16) &&& 255, (n >>> 8) &&& 255, n &&& 255]

/-- Recursion core of chunksOf; the fuel argument only bounds the
recursion and never runs out when it starts at the length of the list,
since every step consumes at least one element. -/
def chunksOfGo {α : Type} (k : Nat) : Nat → List α → List (List α)
  | 0, _ => []
  | fuel + 1, l => if l.isEmpty then [] else l.take k :: chunksOfGo k fuel (l.drop k)

/-- Split a list into consecutive chunks of size k; the final chunk may be
shorter.  This models Rust slice::chunks (which requires k positive; for
k = 0 we return [] where Rust would panic). -/
def chunksOf {α : Type} (k : Nat) (l : List α) : List (List α) :=
  if k = 0 then [] else chunksOfGo k l.length l

/-! ## SHA3-256 (Keccak), as used by tor-llcrypto::d::Sha3_256

The sha3 crate is an external dependency; we implement FIPS 202
SHA3-256 directly so that hash outputs can be computed inside Lean. -/

/-- Keccak round constants. -/
def keccakRC : List Nat :=
  [0x0000000000000001, 0x0000000000008082, 0x800000000000808a, 0x8000000080008000,
   0x000000000000808b, 0x0000000080000001, 0x8000000080008081, 0x8000000000008009,
   0x000000000000008a, 0x0000000000000088, 0x0000000080008009, 0x000000008000000a,
   0x000000008000808b, 0x800000000000008b, 0x8000000000008089, 0x8000000000008003,
   0x8000000000008002, 0x8000000000000080, 0x000000000000800a, 0x800000008000000a,
   0x8000000080008081, 0x8000000000008080, 0x0000000080000001, 0x8000000080008008]

/-- Keccak rotation offsets for lane x + 5*y, one row (fixed y) at a
time. -/
def keccakRot : List Nat :=
  [0, 1, 62, 28, 27] ++ [36, 44, 6, 55, 20] ++ [3, 10, 43, 25, 39] ++
    [41, 45, 15, 21, 8] ++ [18, 2, 61, 56, 14]

/-- Theta step of the Keccak round function. -/
def keccakTheta (s : List Nat) : List Nat :=
  let c := (List.range 5).map (fun x =>
    s.getD x 0 ^^^ s.getD (x+5) 0 ^^^ s.getD (x+10) 0 ^^^ s.getD (x+15) 0 ^^^ s.getD (x+20) 0)
  let d := (List.range 5).map (fun x =>
    c.getD ((x+4) % 5) 0 ^^^ rotl64 (c.getD ((x+1) % 5) 0) 1)
  (List.range 25).map (fun i => s.getD i 0 ^^^ d.getD (i % 5) 0)

/-- Combined rho and pi steps of the Keccak round function. -/
def keccakRhoPi (s : List Nat) : List Nat :=
  (List.range 25).map (fun j =>
    let xB := j % 5
    let yB := j / 5
    let src := ((3 * yB + xB) % 5) + 5 * xB
    rotl64 (s.getD src 0) (keccakRot.getD src 0))

/-- Chi step of the Keccak round function. -/
def keccakChi (s : List Nat) : List Nat :=
  (List.range 25).map (fun j =>
    let x := j % 5
    let y := j / 5
    s.getD j 0 ^^^ ((s.getD ((x+1) % 5 + 5*y) 0 ^^^ u64mask) &&& s.getD ((x+2) % 5 + 5*y) 0))

/-- One full round (theta, rho, pi, chi, iota) of Keccak-f[1600]. -/
def keccakRound (s : List Nat) (i : Nat) : List Nat :=
  match keccakChi (keccakRhoPi (keccakTheta s)) with
  | a :: rest => (a ^^^ keccakRC.getD i 0) :: rest
  | [] => []

/-- The Keccak-f[1600] permutation (24 rounds). -/
def keccakF (s : List Nat) : List Nat :=
  (List.range 24).foldl keccakRound s

/-- Interpret 8 bytes (little-endian) starting at position p of a byte list
as a 64-bit lane. -/
def laneAt (bytes : List Nat) (p : Nat) : Nat :=
  bytes.getD p 0 + 256 * (bytes.getD (p+1) 0 + 256 * (bytes.getD (p+2) 0 +
    256 * (bytes.getD (p+3) 0 + 256 * (bytes.getD (p+4) 0 + 256 * (bytes.getD (p+5) 0 +
    256 * (bytes.getD (p+6) 0 + 256 * bytes.getD (p+7) 0))))))

/-- Absorb one 136-byte block into the sponge state and permute. -/
def keccakAbsorb (s : List Nat) (block : List Nat) : List Nat :=
  keccakF ((List.range 25).map (fun i =>
    if i < 17 then s.getD i 0 ^^^ laneAt block (8*i) else s.getD i 0))

/-- SHA3-256 padding: append 0x06, zero fill to a 136-byte boundary, and
set the top bit of the final byte. -/
def sha3pad (msg : List Nat) : List Nat :=
  let q := 136 - msg.length % 136
  if q = 1 then msg ++ [0x86]
  else msg ++ 0x06 :: List.replicate (q - 2) 0 ++ [0x80]

/-- SHA3-256 of a byte list, as a 32-byte list. -/
def sha3_256 (msg : List Nat) : List Nat :=
  let s := (chunksOf 136 (sha3pad msg)).foldl keccakAbsorb (List.replicate 25 0)
  (List.range 32).map (fun j => (s.getD (j / 8) 0 >>> (8 * (j % 8))) &&& 255)

/-! ## Time periods and HsDir ring parameters
(crates/tor-netdir/src/hsdir_params.rs)

Modelled from the spec: the TimePeriod type lives in tor-hscrypto, which
is not under src/.  Per the spec, the time-period length T comes from the
consensus parameter hsdir_interval, the offset is 12 voting periods, and
the current period number is floor((valid_after - offset) / T).  Times
are seconds since the Unix epoch. -/

/-- A time period for the HsDir ring: its length in seconds, its number,
and the offset of period boundaries from the epoch. -/
structure TimePeriod where
  length_in_sec : Nat
  interval_num : Nat
  offset_in_sec : Nat
deriving DecidableEq

/-- Modelled from the spec: construct the period of length len seconds
containing the time when, with period boundaries offset from the epoch
by offset seconds.  Fails for a zero or non-whole-minute length. -/
def TimePeriod.new (len when offset : Nat) : Option TimePeriod :=
  if len = 0 ∨ len % 60 ≠ 0 then none
  else some ⟨len, (when - offset) / len, offset⟩

/-- The half-open range of times covered by a period, as (start, end). -/
def TimePeriod.range (p : TimePeriod) : Nat × Nat :=
  (p.interval_num * p.length_in_sec + p.offset_in_sec,
   (p.interval_num + 1) * p.length_in_sec + p.offset_in_sec)

/-- The preceding time period, if the period number is positive. -/
def TimePeriod.prev (p : TimePeriod) : Option TimePeriod :=
  if p.interval_num = 0 then none
  else some ⟨p.length_in_sec, p.interval_num - 1, p.offset_in_sec⟩

/-- The following time period. -/
def TimePeriod.next (p : TimePeriod) : Option TimePeriod :=
  some ⟨p.length_in_sec, p.interval_num + 1, p.offset_in_sec⟩

/-- The byte string "shared-random-disaster", in ASCII. -/
def disasterPrefix : List Nat :=
  [115, 104, 97, 114, 101, 100, 45, 114, 97, 110, 100, 111, 109, 45, 100, 105,
   115, 97, 115, 116, 101, 114]

/-- Compute the "Disaster SRV" for a time period: the SHA3-256 digest of
"shared-random-disaster" followed by the big-endian 64-bit period length
in minutes and the big-endian 64-bit period number. -/
def disaster_srv (period : TimePeriod) : List Nat :=
  sha3_256 (disasterPrefix ++ be64 (period.length_in_sec / 60) ++ be64 period.interval_num)

/-- A consensus lifetime: valid-after, fresh-until and valid-until times. -/
structure Lifetime where
  valid_after : Nat
  fresh_until : Nat
  valid_until : Nat
deriving DecidableEq

/-- A shared-random value as listed in a consensus: its 32-byte value and
an optional proposal-342 timestamp. -/
structure SrvEntry where
  value : List Nat
  timestamp : Option Nat
deriving DecidableEq

/-- The fields of an MdConsensus used by the ring-parameter computation. -/
structure MdConsensus where
  lifetime : Lifetime
  shared_rand_cur : Option SrvEntry
  shared_rand_prev : Option SrvEntry
deriving DecidableEq

/-- Network parameters: the hsdir_interval time-period length, in minutes. -/
structure NetParameters where
  hsdir_timeperiod_length : Nat
deriving DecidableEq

/-- Parameters for one HsDir ring: its time period and shared-random value. -/
structure HsRingParams where
  time_period : TimePeriod
  shared_rand : List Nat
deriving DecidableEq

/-- Errors from the ring-parameter computation. -/
inductive NetdirError where
  | invalidConsensus
deriving DecidableEq

/-- The length of the voting period: fresh-until minus valid-after
(an error for a mis-formed lifetime). -/
def voting_period (lt : Lifetime) : Except NetdirError Nat :=
  if lt.valid_after ≤ lt.fresh_until then .ok (lt.fresh_until - lt.valid_after)
  else .error .invalidConsensus

/-- The start of the UTC day containing t. -/
def start_of_day_containing (t : Nat) : Nat :=
  t - t % 86400

/-- One day, in seconds. -/
def oneDay : Nat := 86400

/-- The length of time for which a single SRV value is valid: the
difference of the two declared SRV timestamps when both are present and
ordered, else 24 voting periods. -/
def srv_interval (c : MdConsensus) : Except NetdirError Nat :=
  match c.shared_rand_cur, c.shared_rand_prev with
  | some cur, some prev =>
    match cur.timestamp, prev.timestamp with
    | some cur_ts, some prev_ts =>
      if prev_ts ≤ cur_ts then .ok (cur_ts - prev_ts)
      else (voting_period c.lifetime).map (· * 24)
    | _, _ => (voting_period c.lifetime).map (· * 24)
  | _, _ => (voting_period c.lifetime).map (· * 24)

/-- One SRV together with the half-open time range over which it is the
most recent SRV. -/
def SrvInfo : Type := List Nat × Nat × Nat

/-- Every SRV from a consensus, with the range over which it is most
recent; the current SRV is listed before the previous one. -/
def extract_srvs (c : MdConsensus) : Except NetdirError (List SrvInfo) := do
  let consensus_ts := c.lifetime.valid_after
  let interval ← srv_interval c
  let withCur : List SrvInfo :=
    match c.shared_rand_cur with
    | some cur =>
      let ts_begin := cur.timestamp.getD (start_of_day_containing consensus_ts)
      [(cur.value, ts_begin, ts_begin + interval)]
    | none => []
  let withPrev : List SrvInfo :=
    match c.shared_rand_prev with
    | some prev =>
      let ts_begin := prev.timestamp.getD (start_of_day_containing consensus_ts - oneDay)
      [(prev.value, ts_begin, ts_begin + interval)]
    | none => []
  return withCur ++ withPrev

/-- The SRV (if any) that is the most recent one at time when. -/
def find_srv_for_time (info : List SrvInfo) (when : Nat) : Option (List Nat) :=
  (info.find? (fun i => decide (i.2.1 ≤ when ∧ when < i.2.2))).map (fun i => i.1)

/-- Compute the ring parameters for the current time period of a
consensus, together with the ring parameters of any adjacent periods
whose SRV is known. -/
def compute_ring_parameters (c : MdConsensus) (params : NetParameters) :
    Except NetdirError (HsRingParams × List HsRingParams) := do
  let srvs ← extract_srvs c
  let tp_length := params.hsdir_timeperiod_length * 60
  let vp ← voting_period c.lifetime
  let offset := vp * 12
  match TimePeriod.new tp_length c.lifetime.valid_after offset with
  | none => .error .invalidConsensus
  | some cur_period =>
    let cur_period_start := cur_period.range.1
    let cur_srv := (find_srv_for_time srvs cur_period_start).getD (disaster_srv cur_period)
    let main_ring : HsRingParams := ⟨cur_period, cur_srv⟩
    let other_rings := ([cur_period.prev, cur_period.next].filterMap id).filterMap
      (fun period => (find_srv_for_time srvs period.range.1).map
        (fun srv => HsRingParams.mk period srv))
    return (main_ring, other_rings)

/-- The example consensus SRV value "next saturday night were sending". -/
def srv1Bytes : List Nat :=
  [110, 101, 120, 116, 32, 115, 97, 116, 117, 114, 100, 97, 121, 32, 110, 105,
   103, 104, 116, 32, 119, 101, 114, 101, 32, 115, 101, 110, 100, 105, 110, 103]

/-- The example consensus SRV value "you......... back to the future!". -/
def srv2Bytes : List Nat :=
  [121, 111, 117, 46, 46, 46, 46, 46, 46, 46, 46, 46, 46, 32, 98, 97, 99, 107,
   32, 116, 111, 32, 116, 104, 101, 32, 102, 117, 116, 117, 114, 101, 33]

/-- The fixed example consensus: lifetime 1985-10-25 07:00/08:00/10:00 UTC,
shared_rand_prev = SRV1, shared_rand_cur = SRV2, no SRV timestamps. -/
def exampleConsensus : MdConsensus :=
  { lifetime := ⟨499071600, 499075200, 499082400⟩
    shared_rand_cur := some ⟨srv2Bytes, none⟩
    shared_rand_prev := some ⟨srv1Bytes, none⟩ }

/-- The example consensus parameters: hsdir_interval = 1440 minutes. -/
def exampleParams : NetParameters := ⟨1440⟩

/-! ## HS circuit pool (crates/tor-circmgr/src/hspool.rs) -/

/-- The purpose for which an onion-service circuit will be used. -/
inductive HsCircKind where
  | SvcHsDir
  | SvcIntro
  | SvcRend
  | ClientHsDir
  | ClientIntro
  | ClientRend
deriving DecidableEq

/-- Errors surfaced by the HS circuit pool. -/
inductive HsPoolError where
  | badApiUsage
  | circTimeout
  | protocolExtending
  | launchFailed
deriving DecidableEq

/-- Observable side effects of a circuit request on the pool. -/
inductive HsPoolAction where
  | takeOrLaunchStub
  | extendNtor
deriving DecidableEq

/-- HsCircPool::get_or_launch_specific, at the level of its control flow:
given the purpose kind, the outcome of the take_or_launch_stub_circuit
call, whether the one-hop extension times out and whether it succeeds,
return the result together with the trace of pool actions performed.
ClientRend is rejected as a bad API usage before anything else runs. -/
def get_or_launch_specific (kind : HsCircKind) (stub : Except HsPoolError Nat)
    (timedOut : Bool) (extendOk : Bool) : Except HsPoolError Nat × List HsPoolAction :=
  match kind with
  | .ClientRend => (.error .badApiUsage, [])
  | _ =>
    match stub with
    | .error e => (.error e, [.takeOrLaunchStub])
    | .ok circ =>
      if timedOut then (.error .circTimeout, [.takeOrLaunchStub, .extendNtor])
      else if extendOk then (.ok circ, [.takeOrLaunchStub, .extendNtor])
      else (.error .protocolExtending, [.takeOrLaunchStub, .extendNtor])

/-- The inner launch loop of launch_hs_circuits_as_needed, returning the
number of circuits inserted into the pool.  Arguments: whether a timely
netdir is available, the success of each build attempt, the n_to_launch
counter, the max_attempts counter, and the index of the next attempt.
Translated statement by statement from the source: the loop runs while
n_to_launch is greater than 1, decrements max_attempts first and bails
when it reaches zero, breaks when no timely netdir is available, and on
a successful build inserts the circuit and decrements n_to_launch. -/
def hspoolLaunchLoop (netdirAvailable : Bool) (buildOk : Nat → Bool) :
    Nat → Nat → Nat → Nat
  | nToLaunch, maxAttempts, idx =>
    if nToLaunch > 1 then
      match maxAttempts with
      | 0 => 0
      | ma + 1 =>
        if ma = 0 then 0
        else if netdirAvailable then
          if buildOk idx then
            1 + hspoolLaunchLoop netdirAvailable buildOk (nToLaunch - 1) ma (idx + 1)
          else hspoolLaunchLoop netdirAvailable buildOk nToLaunch ma (idx + 1)
        else 0
    else 0

/-- One wake-up of the launch_hs_circuits_as_needed background task,
after remove_closed has run: the number of circuits inserted, starting
from a pool of poolLen circuits.  As in the source, n_to_launch is
initialized to pool.len().saturating_sub(TARGET_N) with TARGET_N = 8
(Nat subtraction is saturating), and max_attempts to TARGET_N * 2. -/
def launch_hs_circuits_wakeup (poolLen : Nat) (netdirAvailable : Bool)
    (buildOk : Nat → Bool) : Nat :=
  hspoolLaunchLoop netdirAvailable buildOk (poolLen - 8) (8 * 2) 0

/-! ## Task scheduler (crates/tor-rtcompat/src/scheduler.rs) -/

/-- A command sent from task handles to schedule objects. -/
inductive SchedulerCommand where
  | Fire
  | FireAt (instant : Nat)
  | Cancel
deriving DecidableEq

/-- The state of a TaskSchedule: the pending sleep deadline (if any),
the instant-fire flag, the queue of commands sent by handles but not yet
processed, and whether every associated TaskHandle has been dropped
(which closes the command channel). -/
structure TaskScheduleState where
  sleep : Option Nat
  instant_fire : Bool
  queued : List SchedulerCommand
  closed : Bool
deriving DecidableEq

/-- TaskSchedule::new: no sleep, instant_fire set (start off ready),
no queued commands, channel open. -/
def TaskSchedule.new : TaskScheduleState :=
  { sleep := none, instant_fire := true, queued := [], closed := false }

/-- TaskSchedule::fire_in, called on the schedule itself. -/
def TaskSchedule.fire_in (st : TaskScheduleState) (now dur : Nat) : TaskScheduleState :=
  { st with instant_fire := false, sleep := some (now + dur) }

/-- Handle one scheduler command (TaskScheduleP::handle_command). -/
def handle_command (now : Nat) (st : TaskScheduleState) (cmd : SchedulerCommand) :
    TaskScheduleState :=
  match cmd with
  | .Fire => { st with instant_fire := true, sleep := none }
  | .FireAt instant =>
    { st with instant_fire := false, sleep := some (now + (instant - now)) }
  | .Cancel => { st with instant_fire := false, sleep := none }

/-- The result of polling the schedule stream. -/
inductive PollResult where
  | readySome
  | readyNone
  | pending
deriving DecidableEq

/-- Stream::poll_next for TaskSchedule: drain and handle every queued
command; if the channel is closed (every handle dropped) end the stream;
otherwise fire once if instant_fire is set, else check the sleep future
(ready when its deadline has been reached). -/
def poll_next (now : Nat) (st : TaskScheduleState) : PollResult × TaskScheduleState :=
  let st := { st.queued.foldl (handle_command now) st with queued := [] }
  if st.closed then (.readyNone, st)
  else if st.instant_fire then (.readySome, { st with instant_fire := false })
  else
    match st.sleep with
    | some deadline =>
      if deadline ≤ now then (.readySome, { st with sleep := none }) else (.pending, st)
    | none => (.pending, st)

/-! ## Sqlite directory cache expiry (tor-dirmgr/src/storage/sqlite.rs)

The row-timestamp arithmetic of the DELETE statements is the SQLite
datetime function, an external library; we model its calendar semantics
(per the SQLite documentation) at whole-day granularity: a date is a
civil (year, month, day) triple, datetime comparison is lexicographic,
"-2 days" subtracts exact days and "-3 months" decrements the month
field and then normalizes the date (so that for instance February 31
becomes March 3). -/

/-- A civil date: year, month (1-12), day (1-31). -/
structure Date where
  y : Nat
  m : Nat
  d : Nat
deriving DecidableEq

/-- Date comparison, lexicographic like the SQLite text comparison of
ISO-8601 datetimes. -/
def dateLt (a b : Date) : Bool :=
  a.y < b.y ∨ (a.y = b.y ∧ (a.m < b.m ∨ (a.m = b.m ∧ a.d < b.d)))

/-- Gregorian leap years. -/
def isLeap (y : Nat) : Bool :=
  (y % 4 = 0 ∧ y % 100 ≠ 0) ∨ y % 400 = 0

/-- Number of days in a month. -/
def daysInMonth (y m : Nat) : Nat :=
  if m = 2 then (if isLeap y then 29 else 28)
  else if m = 4 ∨ m = 6 ∨ m = 9 ∨ m = 11 then 30
  else 31

/-- Normalize a date whose day field may exceed the month length, as the
SQLite date functions do (a single carry step suffices for a day of at
most 31). -/
def normalizeDate (dt : Date) : Date :=
  if dt.d ≤ daysInMonth dt.y dt.m then dt
  else if dt.m = 12 then ⟨dt.y + 1, 1, dt.d - daysInMonth dt.y dt.m⟩
  else ⟨dt.y, dt.m + 1, dt.d - daysInMonth dt.y dt.m⟩

/-- SQLite datetime(t, "-3 months"): decrement the month field by three
(borrowing from the year), then normalize. -/
def subThreeMonths (dt : Date) : Date :=
  if 4 ≤ dt.m then normalizeDate ⟨dt.y, dt.m - 3, dt.d⟩
  else normalizeDate ⟨dt.y - 1, dt.m + 9, dt.d⟩

/-- The previous day. -/
def predDate (dt : Date) : Date :=
  if 1 < dt.d then ⟨dt.y, dt.m, dt.d - 1⟩
  else if 1 < dt.m then ⟨dt.y, dt.m - 1, daysInMonth dt.y (dt.m - 1)⟩
  else ⟨dt.y - 1, 12, 31⟩

/-- SQLite datetime(t, "-2 days"). -/
def subTwoDays (dt : Date) : Date :=
  predDate (predDate dt)

/-- Days from the civil epoch to a date (a rata-die count), used to state
elapsed-day bounds.  Standard days-from-civil formula. -/
def toRataDie (dt : Date) : Nat :=
  let yy := dt.y - (if dt.m ≤ 2 then 1 else 0)
  let era := yy / 400
  let yoe := yy % 400
  let mp := if 2 < dt.m then dt.m - 3 else dt.m + 9
  let doy := (153 * mp + 2) / 5 + (dt.d - 1)
  let doe := yoe * 365 + yoe / 4 - yoe / 100 + doy
  era * 146097 + doe

/-- A row of the Consensuses table. -/
structure ConsensusRow where
  digest : Nat
  valid_until : Date
deriving DecidableEq

/-- A row of the Authcerts table. -/
structure AuthcertRow where
  id_digest : Nat
  expires : Date
deriving DecidableEq

/-- A row of the Microdescs table. -/
structure MicrodescRow where
  sha256_digest : Nat
  last_listed : Date
deriving DecidableEq

/-- A row of the ExtDocs table. -/
structure ExtDocRow where
  filename : Nat
  expires : Date
deriving DecidableEq

/-- The tables of the sqlite store touched by expire_all, plus the set of
blob files on disk (named by ExtDocs filenames). -/
structure SqliteStoreState where
  consensuses : List ConsensusRow
  authcerts : List AuthcertRow
  microdescs : List MicrodescRow
  extdocs : List ExtDocRow
  blobFiles : List Nat
deriving DecidableEq

/-- SqliteStore::expire_all at date now: collect the filenames of expired
ExtDocs, run the four DELETE statements (expired extdocs; microdescs not
listed since now minus 3 months; expired authcerts; consensuses whose
valid_until is over 2 days past), then remove the expired blob files. -/
def expire_all (now : Date) (st : SqliteStoreState) : SqliteStoreState :=
  let expired_blobs := (st.extdocs.filter (fun r => dateLt r.expires now)).map (·.filename)
  { consensuses := st.consensuses.filter (fun r => !dateLt r.valid_until (subTwoDays now))
    authcerts := st.authcerts.filter (fun r => !dateLt r.expires now)
    microdescs := st.microdescs.filter (fun r => !dateLt r.last_listed (subThreeMonths now))
    extdocs := st.extdocs.filter (fun r => !dateLt r.expires now)
    blobFiles := st.blobFiles.filter (fun f => !expired_blobs.contains f) }

/-! ## Microdescriptor downloads (tor-dirmgr/src/lib.rs, download_mds)

Microdescriptor digests (32-byte arrays ordered lexicographically) are
modelled as natural numbers with their numeric order, which is the same
order on fixed-width big-endian arrays. -/

/-- The number of microdescriptor requests kept in flight concurrently
(passed to buffer_unordered in download_mds). -/
def n_parallel_requests : Nat := 4

/-- The request chunks issued by download_mds for a list of missing
digests: sort ascending, then split into chunks of size
min(500, (len + 2) / 3); one request is issued per chunk. -/
def download_mds_chunks (missing : List Nat) : List (List Nat) :=
  let sorted := missing.insertionSort (· ≤ ·)
  if missing.isEmpty then []
  else chunksOf (min 500 ((missing.length + 2) / 3)) sorted

/-! ## Directory bootstrap: certificate fetching and consensus validation
(tor-dirmgr/src/lib.rs, UnvalidatedDir)

Modelled from the spec: the consensus document type and its
key_is_correct and check_signature operations live in tor-netdoc, which
is not under src/; per the spec, certificates are fetched until
key_is_correct holds and check_signature then validates the consensus.
They are modelled as abstract functions of the certificate list:
keyIsCorrectMissing returns the list of missing certificate key ids
(empty meaning key_is_correct holds), and signatureOk says whether
check_signature succeeds.  Authorities match certificates and key ids by
their v3 identity fingerprint. -/

/-- A pair of authority certificate key ids (identity and signing-key
fingerprints). -/
structure AuthCertKeyIds where
  id_fingerprint : Nat
  sk_fingerprint : Nat
deriving DecidableEq

/-- An authority certificate, reduced to its key ids. -/
structure AuthCert where
  key_ids : AuthCertKeyIds
deriving DecidableEq

/-- A directory authority, reduced to its v3 identity fingerprint. -/
structure Authority where
  v3ident : Nat
deriving DecidableEq

/-- Authority::matches_cert. -/
def Authority.matches_cert (a : Authority) (c : AuthCert) : Bool :=
  a.v3ident = c.key_ids.id_fingerprint

/-- Authority::matches_keyid. -/
def Authority.matches_keyid (a : Authority) (k : AuthCertKeyIds) : Bool :=
  a.v3ident = k.id_fingerprint

/-- The directory configuration: the list of trusted authorities. -/
structure NetDirConfig where
  authorities : List Authority

/-- An unvalidated consensus, abstracted to the two checks the bootstrap
code performs on it. -/
structure UnvalidatedMDConsensus where
  keyIsCorrectMissing : List AuthCert → List AuthCertKeyIds
  signatureOk : List AuthCert → Bool

/-- The UnvalidatedDir bootstrap state. -/
structure UnvalidatedDir where
  from_cache : Bool
  consensus : UnvalidatedMDConsensus
  consensus_meta : Nat
  certs : List AuthCert

/-- The PartialDir bootstrap state; the dir field records the certificate
list against which the consensus signature was checked. -/
structure PartialDir where
  from_cache : Bool
  consensus_meta : Nat
  dir : List AuthCert

/-- The possible state transition after fetching or loading directory
information. -/
inductive NextState (α β : Type) where
  | SameState (a : α)
  | NewState (b : β)

/-- Errors from the validation step. -/
inductive DirError where
  | signatureFailed
deriving DecidableEq

/-- UnvalidatedDir::prune_certs: drop every certificate not matching some
configured authority. -/
def prune_certs (config : NetDirConfig) (dir : UnvalidatedDir) : UnvalidatedDir :=
  { dir with certs :=
      dir.certs.filter (fun cert => config.authorities.any (fun a => a.matches_cert cert)) }

/-- UnvalidatedDir::missing_certs: prune the certificates, then return
the missing key ids reported by key_is_correct, restricted to configured
authorities (together with the pruned state, since the method mutates
self). -/
def missing_certs (config : NetDirConfig) (dir : UnvalidatedDir) :
    List AuthCertKeyIds × UnvalidatedDir :=
  let dir := prune_certs config dir
  match dir.consensus.keyIsCorrectMissing dir.certs with
  | [] => ([], dir)
  | missing =>
    (missing.filter (fun m => config.authorities.any (fun a => a.matches_keyid m)), dir)

/-- UnvalidatedDir::advance: if no certificates are missing, check the
consensus signature and move to PartialDir (or fail); otherwise stay in
the same state. -/
def UnvalidatedDir.advance (config : NetDirConfig) (dir : UnvalidatedDir) :
    Except DirError (NextState UnvalidatedDir PartialDir) :=
  let (missing, dir) := missing_certs config dir
  if missing.isEmpty then
    if dir.consensus.signatureOk dir.certs then
      .ok (.NewState ⟨dir.from_cache, dir.consensus_meta, dir.certs⟩)
    else .error .signatureFailed
  else .ok (.SameState dir)

/-! ## Relay cell encoding and decoding (tor-proto/src/relaycell/msg.rs)

Byte strings are lists of naturals; the writer and reader primitives of
tor-bytes (a crate of this repository not under src/) are modelled from
the spec and the Tor wire format: multi-byte integers are big-endian,
take_until consumes (but does not return) the terminator, and truncate
cuts the remaining data down to the given length. -/

/-- Errors from the byte reader (tor_bytes::Error). -/
inductive BytesError where
  | truncated
  | badMessage
deriving DecidableEq

/-- Errors from relay cell encoding (crate::Error). -/
inductive CellError where
  | internalTooLong
deriving DecidableEq

/-- The length of a relay cell body (CELL_DATA_LEN). -/
def CELL_DATA_LEN : Nat := 509

/-- Length of a TAP client handshake (from tor-proto chancell, not under
src/): 128 + 16 + 42 bytes. -/
def TAP_C_HANDSHAKE_LEN : Nat := 186

/-- Length of a TAP server handshake (from tor-proto chancell, not under
src/): 128 + 20 bytes. -/
def TAP_S_HANDSHAKE_LEN : Nat := 148

/-- Write a big-endian byte string of the given width for a value,
truncating it to the width as a Rust integer cast does. -/
def writeBE (width value : Nat) : List Nat :=
  (List.range width).map (fun i => (value >>> (8 * (width - 1 - i))) &&& 255)

/-- Writer::write_u16 (big-endian). -/
def writeU16 (n : Nat) : List Nat := writeBE 2 n

/-- Writer::write_u32 (big-endian). -/
def writeU32 (n : Nat) : List Nat := writeBE 4 n

/-- Interpret a byte string as a big-endian natural number. -/
def bytesToNatBE (l : List Nat) : Nat :=
  l.foldl (fun a b => a * 256 + b) 0

/-- Reader::take_u8. -/
def takeU8 : List Nat → Except BytesError (Nat × List Nat)
  | [] => .error .truncated
  | b :: rest => .ok (b, rest)

/-- Reader::take: consume and return n bytes. -/
def takeBytes (n : Nat) (l : List Nat) : Except BytesError (List Nat × List Nat) :=
  if l.length < n then .error .truncated else .ok (l.take n, l.drop n)

/-- Reader::advance: skip n bytes. -/
def advanceR (n : Nat) (l : List Nat) : Except BytesError (Unit × List Nat) :=
  if l.length < n then .error .truncated else .ok ((), l.drop n)

/-- Reader::take_u16 (big-endian). -/
def takeU16 (l : List Nat) : Except BytesError (Nat × List Nat) := do
  let (bs, l) ← takeBytes 2 l
  return (bytesToNatBE bs, l)

/-- Reader::take_u32 (big-endian). -/
def takeU32 (l : List Nat) : Except BytesError (Nat × List Nat) := do
  let (bs, l) ← takeBytes 4 l
  return (bytesToNatBE bs, l)

/-- Reader::take_until: consume and return the bytes before the first
occurrence of the terminator, consuming the terminator as well; error
if the terminator never occurs. -/
def takeUntil (term : Nat) (l : List Nat) : Except BytesError (List Nat × List Nat) :=
  match l.findIdx? (fun b => b = term) with
  | none => .error .truncated
  | some i => .ok (l.take i, l.drop (i + 1))

/-- The ASCII decimal digits of n (port.to_string). -/
def decimalBytes (n : Nat) : List Nat :=
  (Nat.toDigits 10 n).map Char.toNat

/-- u16::from_str_radix(s, 10): an optional leading plus sign, then one
or more decimal digits, rejecting values that overflow a u16. -/
def parsePortU16 (s : List Nat) : Option Nat :=
  let digits := match s with
    | 43 :: rest => rest
    | _ => s
  if digits.isEmpty then none
  else if digits.all (fun c => 48 ≤ c ∧ c ≤ 57) then
    let v := digits.foldl (fun a c => a * 10 + (c - 48)) 0
    if v < 65536 then some v else none
  else none

/-- An IP address: a v4 address as a 32-bit value or a v6 address as a
128-bit value, both written big-endian on the wire. -/
inductive IpAddr where
  | v4 (addr : Nat)
  | v6 (addr : Nat)
deriving DecidableEq

/-- A link specifier of an EXTEND2 message.  Modelled from the spec: the
LinkSpec type lives in tor-linkspec (not under src/); on the wire it is
a one-byte type, a one-byte length and that many bytes of data. -/
structure LinkSpec where
  tp : Nat
  data : List Nat
deriving DecidableEq

/-- Encoding of a link specifier. -/
def LinkSpec.encode_onto (ls : LinkSpec) : List Nat :=
  (ls.tp &&& 255) :: (ls.data.length &&& 255) :: ls.data

/-- Decoding of a link specifier. -/
def LinkSpec.decode_from_reader (l : List Nat) : Except BytesError (LinkSpec × List Nat) := do
  let (tp, l) ← takeU8 l
  let (len, l) ← takeU8 l
  let (bs, l) ← takeBytes len l
  return (⟨tp, bs⟩, l)

/-- Decode n consecutive link specifiers (Reader::extract_n). -/
def extractLinkSpecs : Nat → List Nat → Except BytesError (List LinkSpec × List Nat)
  | 0, l => .ok ([], l)
  | n + 1, l => do
    let (ls, l) ← LinkSpec.decode_from_reader l
    let (rest, l) ← extractLinkSpecs n l
    return (ls :: rest, l)

/-- A response value inside a RESOLVED message. -/
inductive ResolvedVal where
  | Ip (a : IpAddr)
  | Hostname (h : List Nat)
  | TransientError
  | NontransientError
  | Unrecognized (tp : Nat) (v : List Nat)
deriving DecidableEq

/-- Writeable::write_onto for ResolvedVal. -/
def ResolvedVal.write_onto : ResolvedVal → List Nat
  | .Hostname h => 0 :: (h.length &&& 255) :: h
  | .Ip (.v4 a) => 4 :: 4 :: writeU32 a
  | .Ip (.v6 a) => 6 :: 16 :: writeBE 16 a
  | .TransientError => [0xF0, 0]
  | .NontransientError => [0xF1, 0]
  | .Unrecognized tp v => (tp &&& 255) :: (v.length &&& 255) :: v

/-- Readable::take_from for ResolvedVal. -/
def ResolvedVal.take_from (l : List Nat) : Except BytesError (ResolvedVal × List Nat) := do
  let (tp, l) ← takeU8 l
  let (len, l) ← takeU8 l
  if tp = 4 ∧ len ≠ 4 then .error .badMessage
  else if tp = 6 ∧ len ≠ 16 then .error .badMessage
  else if tp = 0 then do
    let (h, l) ← takeBytes len l
    return (.Hostname h, l)
  else if tp = 4 then do
    let (a, l) ← takeU32 l
    return (.Ip (.v4 a), l)
  else if tp = 6 then do
    let (bs, l) ← takeBytes 16 l
    return (.Ip (.v6 (bytesToNatBE bs)), l)
  else if tp = 0xF0 then do
    let (_, l) ← advanceR len l
    return (.TransientError, l)
  else if tp = 0xF1 then do
    let (_, l) ← advanceR len l
    return (.NontransientError, l)
  else do
    let (v, l) ← takeBytes len l
    return (.Unrecognized tp v, l)

/-- A parsed relay message, as in the RelayMsg enum; each constructor
carries the fields of the corresponding message struct. -/
inductive RelayMsg where
  | Begin (addr : List Nat) (port : Nat) (flags : Nat)
  | Data (body : List Nat)
  | End (reason : Nat) (addr : Option (IpAddr × Nat))
  | Connected (addr : Option (IpAddr × Nat))
  | Sendme (digest : Option (List Nat))
  | Extend (addr : Nat) (port : Nat) (handshake : List Nat) (rsaid : List Nat)
  | Extended (handshake : List Nat)
  | Extend2 (linkspec : List LinkSpec) (handshake_type : Nat) (handshake : List Nat)
  | Extended2 (handshake : List Nat)
  | Truncate
  | Truncated (reason : Nat)
  | Drop
  | Resolve (query : List Nat)
  | Resolved (answers : List (ResolvedVal × Nat))
  | BeginDir
  | Unrecognized (cmd : Nat) (body : List Nat)
deriving DecidableEq

/-- The stream command byte values, modelled from the spec (the StreamCmd
constants live in relaycell/mod.rs, not under src/; the values are the
standard Tor relay command numbers). -/
def RelayMsg.get_cmd : RelayMsg → Nat
  | .Begin _ _ _ => 1
  | .Data _ => 2
  | .End _ _ => 3
  | .Connected _ => 4
  | .Sendme _ => 5
  | .Extend _ _ _ _ => 6
  | .Extended _ => 7
  | .Extend2 _ _ _ => 14
  | .Extended2 _ => 15
  | .Truncate => 8
  | .Truncated _ => 9
  | .Drop => 10
  | .Resolve _ => 11
  | .Resolved _ => 12
  | .BeginDir => 13
  | .Unrecognized cmd _ => cmd

/-- Body::encode_onto for every message type, returning the produced
bytes. -/
def RelayMsg.encode_onto : RelayMsg → List Nat
  | .Begin addr port flags => addr ++ [58] ++ decimalBytes port ++ [0] ++ writeU32 flags
  | .Data body => body
  | .End reason addr =>
    (reason &&& 255) ::
      (if reason = 4 then
        match addr with
        | some (.v4 a, ttl) => writeU32 a ++ writeU32 ttl
        | some (.v6 a, ttl) => writeBE 16 a ++ writeU32 ttl
        | none => []
      else [])
  | .Connected addr =>
    match addr with
    | none => []
    | some (.v4 a, ttl) => writeU32 a ++ writeU32 ttl
    | some (.v6 a, ttl) => writeU32 0 ++ [6] ++ writeBE 16 a ++ writeU32 ttl
  | .Sendme digest =>
    match digest with
    | none => []
    | some x => x
  | .Extend addr port handshake rsaid => writeU32 addr ++ writeU16 port ++ handshake ++ rsaid
  | .Extended handshake => handshake
  | .Extend2 linkspec handshake_type handshake =>
    (linkspec.length &&& 255) :: ((linkspec.map LinkSpec.encode_onto).flatten
      ++ writeU16 handshake_type ++ handshake)
  | .Extended2 handshake => writeU16 handshake.length ++ handshake
  | .Truncate => []
  | .Truncated reason => [reason &&& 255]
  | .Drop => []
  | .Resolve query => query ++ [0]
  | .Resolved answers => (answers.map (fun a => a.1.write_onto ++ writeU32 a.2)).flatten
  | .BeginDir => []
  | .Unrecognized _ body => body

/-- Begin::decode_from_reader. -/
def decodeBegin (l : List Nat) : Except BytesError (RelayMsg × List Nat) := do
  let (addr, l) ← takeUntil 58 l
  let (port, l) ← takeUntil 0 l
  let (flags, l) ← if 4 ≤ l.length then takeU32 l else .ok (0, l)
  if !(addr.all (fun b => b < 128)) then .error .badMessage
  else
    match parsePortU16 port with
    | none => .error .badMessage
    | some p => .ok (.Begin addr p flags, l)

/-- End::decode_from_reader. -/
def decodeEnd (l : List Nat) : Except BytesError (RelayMsg × List Nat) := do
  if l.isEmpty then return (.End 1 none, l)
  else
    let (reason, l) ← takeU8 l
    if reason = 4 then
      if l.length = 8 then do
        let (a, l) ← takeU32 l
        let (ttl, l) ← takeU32 l
        return (.End reason (some (.v4 a, ttl)), l)
      else if l.length = 20 then do
        let (bs, l) ← takeBytes 16 l
        let (ttl, l) ← takeU32 l
        return (.End reason (some (.v6 (bytesToNatBE bs), ttl)), l)
      else return (.End reason none, l)
    else return (.End reason none, l)

/-- Connected::decode_from_reader. -/
def decodeConnected (l : List Nat) : Except BytesError (RelayMsg × List Nat) := do
  if l.isEmpty then return (.Connected none, l)
  else
    let (ipv4, l) ← takeU32 l
    if ipv4 = 0 then do
      let (b, l) ← takeU8 l
      if b ≠ 6 then return (.Connected none, l)
      else do
        let (bs, l) ← takeBytes 16 l
        let (ttl, l) ← takeU32 l
        return (.Connected (some (.v6 (bytesToNatBE bs), ttl)), l)
    else do
      let (ttl, l) ← takeU32 l
      return (.Connected (some (.v4 ipv4, ttl)), l)

/-- Extend::decode_from_reader. -/
def decodeExtend (l : List Nat) : Except BytesError (RelayMsg × List Nat) := do
  let (a, l) ← takeU32 l
  let (port, l) ← takeU16 l
  let (handshake, l) ← takeBytes TAP_C_HANDSHAKE_LEN l
  let (rsaid, l) ← takeBytes 20 l
  return (.Extend a port handshake rsaid, l)

/-- Extend2::decode_from_reader. -/
def decodeExtend2 (l : List Nat) : Except BytesError (RelayMsg × List Nat) := do
  let (n, l) ← takeU8 l
  let (linkspec, l) ← extractLinkSpecs n l
  let (handshake_type, l) ← takeU16 l
  let (hlen, l) ← takeU16 l
  let (handshake, l) ← takeBytes hlen l
  return (.Extend2 linkspec handshake_type handshake, l)

/-- Extended2::decode_from_reader. -/
def decodeExtended2 (l : List Nat) : Except BytesError (RelayMsg × List Nat) := do
  let (hlen, l) ← takeU16 l
  let (handshake, l) ← takeBytes hlen l
  return (.Extended2 handshake, l)

/-- The loop of Resolved::decode_from_reader; the fuel argument only
bounds the recursion and never runs out when it starts at the length of
the input, since every answer consumes at least one byte. -/
def decodeResolvedAnswers : Nat → List Nat →
    Except BytesError (List (ResolvedVal × Nat) × List Nat)
  | _, [] => .ok ([], [])
  | 0, _ => .error .truncated
  | fuel + 1, l => do
    let (rv, l) ← ResolvedVal.take_from l
    let (ttl, l) ← takeU32 l
    let (rest, l) ← decodeResolvedAnswers fuel l
    return ((rv, ttl) :: rest, l)

/-- RelayMsg::decode_from_reader: dispatch on the command byte. -/
def RelayMsg.decode_from_reader (c : Nat) (l : List Nat) :
    Except BytesError (RelayMsg × List Nat) :=
  match c with
  | 1 => decodeBegin l
  | 2 => .ok (.Data l, [])
  | 3 => decodeEnd l
  | 4 => decodeConnected l
  | 5 => .ok (.Sendme (some l), [])
  | 6 => decodeExtend l
  | 7 => do
    let (handshake, l) ← takeBytes TAP_S_HANDSHAKE_LEN l
    return (.Extended handshake, l)
  | 8 => .ok (.Truncate, l)
  | 9 => do
    let (reason, l) ← takeU8 l
    return (.Truncated reason, l)
  | 10 => .ok (.Drop, l)
  | 11 => do
    let (query, l) ← takeUntil 0 l
    return (.Resolve query, l)
  | 12 => do
    let (answers, l) ← decodeResolvedAnswers l.length l
    return (.Resolved answers, l)
  | 13 => .ok (.BeginDir, l)
  | 14 => decodeExtend2 l
  | 15 => decodeExtended2 l
  | c => .ok (.Unrecognized c l, [])

/-- A parsed relay cell: a stream ID (a u16, modelled as a Nat) and a
relay message. -/
structure RelayCell where
  streamid : Nat
  body : RelayMsg
deriving DecidableEq

/-- RelayCell::encode_to_vec: command byte, a zero u16 "recognized"
field, the stream ID, a zero u32 digest, the payload length as a u16,
then the encoded message body. -/
def RelayCell.encode_to_vec (c : RelayCell) : List Nat :=
  let payload := c.body.encode_onto
  (c.body.get_cmd &&& 255) :: 0 :: 0 :: (writeU16 c.streamid ++ (0 :: 0 :: 0 :: 0 ::
    (writeU16 payload.length ++ payload)))

/-- RelayCell::encode: lay the encoded cell into a zeroed 509-byte body
and, when at least MIN_SPACE_BEFORE_PADDING = 4 bytes of slack remain,
overwrite everything after the first 4 slack bytes with bytes drawn from
the random generator (modelled as the stream pad of random bytes). -/
def RelayCell.encode (c : RelayCell) (pad : Nat → Nat) : Except CellError (List Nat) :=
  let encoded := c.encode_to_vec
  let enc_len := encoded.length
  if enc_len > CELL_DATA_LEN then .error .internalTooLong
  else
    let raw := encoded ++ List.replicate (CELL_DATA_LEN - enc_len) 0
    if enc_len < CELL_DATA_LEN - 4 then
      .ok (raw.take (enc_len + 4) ++
        (List.range (CELL_DATA_LEN - (enc_len + 4))).map (fun i => pad i &&& 255))
    else .ok raw

/-- RelayCell::decode (via decode_from_reader): read the command byte,
skip the recognized field, read the stream ID, skip the digest, read the
length, truncate the reader to that length, and decode the message. -/
def RelayCell.decode (body : List Nat) : Except BytesError RelayCell := do
  let (cmd, r) ← takeU8 body
  let (_, r) ← advanceR 2 r
  let (sid, r) ← takeU16 r
  let (_, r) ← advanceR 4 r
  let (len, r) ← takeU16 r
  if r.length < len then .error .badMessage
  else do
    let (msg, _) ← RelayMsg.decode_from_reader cmd (r.take len)
    return ⟨sid, msg⟩

/-- Whether decoding the encoded body of a message (under its own
command) yields the message back. -/
def bodyRoundTripsB (m : RelayMsg) : Bool :=
  match RelayMsg.decode_from_reader m.get_cmd m.encode_onto with
  | .ok (m', _) => decide (m' = m)
  | .error _ => false

/-! ## Formalized claims under test

Each of the following Prop definitions states one spec claim exactly as
it is written, so that a counterexample can refute it where it fails on
the code. -/

/-- Claim: for every relay message whose encoding fits in a cell, encode
produces the encoded message followed by at least 4 zero bytes and then
by bytes drawn from the random generator filling the remainder of the
509-byte body. -/
def relaycell_padding_claim : Prop :=
  ∀ (c : RelayCell) (pad : Nat → Nat),
    c.encode_to_vec.length ≤ CELL_DATA_LEN →
    c.encode pad = .ok (c.encode_to_vec ++ List.replicate 4 0 ++
      (List.range (CELL_DATA_LEN - (c.encode_to_vec.length + 4))).map (fun i => pad i &&& 255))

/-- Claim: for every well-formed relay cell (a u16 stream ID and a
message whose encoding fits in the 509-byte body) and every choice of
random padding, decoding the encoded body returns the cell itself. -/
def relaycell_roundtrip_claim : Prop :=
  ∀ (c : RelayCell) (pad : Nat → Nat),
    c.streamid < 65536 →
    c.encode_to_vec.length ≤ CELL_DATA_LEN →
    (c.encode pad).toOption.bind (fun b => (RelayCell.decode b).toOption) = some c

/-- Claim: for the fixed example consensus, compute_ring_parameters
yields a primary ring whose time period starts at the consensus
valid-after time (1985-10-25 07:00 UTC, i.e. 499071600) with SRV1, and
exactly one secondary ring, with SRV2. -/
def ring_params_claim : Prop :=
  ∃ main others,
    compute_ring_parameters exampleConsensus exampleParams = .ok (main, others) ∧
    main.time_period.range.1 = 499071600 ∧
    main.shared_rand = srv1Bytes ∧
    others.map (fun r => r.shared_rand) = [srv2Bytes]

/-- Claim: expire_all removes exactly the stale entries, where a
consensus is stale when its valid_until lies more than 2 days in the
past, a certificate when it is past its expiry time, and a
microdescriptor when it has not been listed for 90 days. -/
def sqlite_expiry_claim : Prop :=
  ∀ (st : SqliteStoreState) (now : Date),
    (∀ r ∈ st.consensuses,
      (r ∈ (expire_all now st).consensuses ↔ toRataDie now ≤ toRataDie r.valid_until + 2)) ∧
    (∀ r ∈ st.authcerts,
      (r ∈ (expire_all now st).authcerts ↔ toRataDie now ≤ toRataDie r.expires)) ∧
    (∀ r ∈ st.microdescs,
      (r ∈ (expire_all now st).microdescs ↔ toRataDie now < toRataDie r.last_listed + 90))

/-- Claim: when certificates are missing, UnvalidatedDir::advance
returns SameState with the state unchanged. -/
def advance_same_state_claim : Prop :=
  ∀ (config : NetDirConfig) (dir : UnvalidatedDir),
    (missing_certs config dir).1 ≠ [] →
    UnvalidatedDir.advance config dir = .ok (.SameState dir)

/-- Claim: the first poll of a newly created TaskSchedule yields an item
immediately, before any fire, fire_in or fire_at call (that is, whatever
commands other than Fire and FireAt may be queued). -/
def scheduler_first_poll_claim : Prop :=
  ∀ (cmds : List SchedulerCommand) (now : Nat),
    (∀ c ∈ cmds, c ≠ .Fire ∧ ∀ i, c ≠ .FireAt i) →
    (poll_next now { TaskSchedule.new with queued := cmds }).1 = .readySome

/-- The concrete store used to refute the 90-day microdescriptor claim:
one microdescriptor last listed on 1985-style day granularity 91 days
before the reference date. -/
def c2Store : SqliteStoreState :=
  ⟨[], [], [⟨1, ⟨2026, 7, 13⟩⟩], [], []⟩

/-- The configuration used to refute the advance same-state claim: one
authority with v3 identity 5. -/
def c7Config : NetDirConfig := ⟨[⟨5⟩]⟩

/-- The UnvalidatedDir used to refute the advance same-state claim: its
certificate list holds one certificate from an unrecognized authority,
and the consensus reports a missing certificate for authority 5. -/
def c7Dir : UnvalidatedDir :=
  { from_cache := false
    consensus := { keyIsCorrectMissing := fun _ => [⟨5, 5⟩], signatureOk := fun _ => true }
    consensus_meta := 0
    certs := [⟨⟨99, 99⟩⟩] }

/-! ## Theorems -/

/-- Helper: masking with 255 is reduction modulo 256. -/
theorem and255_eq_mod (n : Nat) : n &&& 255 = n % 256 := by
  have h : (255 : Nat) = 2 ^ 8 - 1 := by norm_num
  rw [h, Nat.and_pow_two_sub_one_eq_mod]

/-- C1: the launch_hs_circuits_as_needed wake-up never builds anything
when the pool is at or below the target of 8 circuits, whatever the
build outcomes, because n_to_launch is computed as
pool.len().saturating_sub(TARGET_N) instead of the reverse: the claimed
refill to 8 circuits never happens. -/
theorem launcher_never_fills_pool (poolLen : Nat) (h : poolLen ≤ 8)
    (buildOk : Nat → Bool) :
    launch_hs_circuits_wakeup poolLen true buildOk = 0 := by
  unfold launch_hs_circuits_wakeup
  have h0 : poolLen - 8 = 0 := by omega
  rw [h0]
  rfl

/-- Witness for C1: with an empty pool, a timely netdir and every build
attempt succeeding, the wake-up still inserts zero circuits. -/
theorem launcher_never_fills_pool_witness :
    0 ≤ 8 ∧ launch_hs_circuits_wakeup 0 true (fun _ => true) = 0 :=
  ⟨by decide, launcher_never_fills_pool 0 (by decide) (fun _ => true)⟩

/-- Supporting evidence for C1: the inverted subtraction makes the task
launch circuits precisely when the pool is already above target. -/
theorem launcher_launches_above_target :
    launch_hs_circuits_wakeup 10 true (fun _ => true) = 1 := by decide

/-- C9: get_or_launch_specific with kind ClientRend returns a
BadApiUsage error immediately, with an empty action trace: it neither
takes a circuit from the pool nor launches or extends anything,
whatever the pool and netdir would have produced. -/
theorem get_or_launch_specific_client_rend
    (stub : Except HsPoolError Nat) (timedOut extendOk : Bool) :
    get_or_launch_specific .ClientRend stub timedOut extendOk =
      (.error .badApiUsage, []) := rfl

/-- C5: disaster_srv is the SHA3-256 hash of "shared-random-disaster"
followed by the 64-bit big-endian period length in minutes and the
64-bit big-endian period number; for a period of one day with period
number 1 it equals the fixed vector F8A49487...D3507D. -/
theorem disaster_srv_spec :
    (∀ p : TimePeriod, disaster_srv p =
      sha3_256 (disasterPrefix ++ be64 (p.length_in_sec / 60) ++ be64 p.interval_num)) ∧
    disaster_srv ⟨86400, 1, 43200⟩ =
      [0xF8, 0xA4, 0x94, 0x87, 0x07, 0x65, 0x38, 0x37, 0xFA, 0x44, 0xAB, 0xB5,
       0xBB, 0xC7, 0x5A, 0x12, 0xF6, 0xF1, 0x01, 0xE7, 0xF8, 0xFA, 0xF6, 0x99,
       0xB9, 0x71, 0x5F, 0x49, 0x65, 0xD3, 0x50, 0x7D] :=
  ⟨fun _ => rfl, by decide⟩

/-- C4 counterexample: the claim that the primary ring period starts at
the consensus valid-after time (1985-10-25 07:00, i.e. 499071600) is
false: the computed primary period starts at 1985-10-24 12:00
(499003200). -/
theorem ring_params_claim_false : ¬ ring_params_claim := by
  intro hclaim
  obtain ⟨main, others, heq, hstart, hsrv, ho⟩ := hclaim
  have hc : compute_ring_parameters exampleConsensus exampleParams =
      .ok (⟨⟨86400, 5775, 43200⟩, srv1Bytes⟩, [⟨⟨86400, 5776, 43200⟩, srv2Bytes⟩]) := by
    decide
  rw [hc] at heq
  simp only [Except.ok.injEq, Prod.mk.injEq] at heq
  obtain ⟨hmain, hothers⟩ := heq
  subst hmain
  exact absurd hstart (by decide)

/-- C4 amended: for the fixed example consensus the primary ring is the
period of length one day containing the valid-after time 1985-10-25
07:00 (it starts 1985-10-24 12:00, i.e. 499003200) with shared_rand =
SRV1, and there is exactly one secondary ring, for the immediately
following period, with shared_rand = SRV2. -/
theorem ring_params_example :
    ∃ main others,
      compute_ring_parameters exampleConsensus exampleParams = .ok (main, others) ∧
      main.time_period.range.1 = 499003200 ∧
      main.time_period.range.1 ≤ 499071600 ∧
      499071600 < main.time_period.range.2 ∧
      main.time_period.length_in_sec = 86400 ∧
      main.shared_rand = srv1Bytes ∧
      others.map (fun r => r.shared_rand) = [srv2Bytes] ∧
      others.map (fun r => r.time_period.interval_num) =
        [main.time_period.interval_num + 1] :=
  ⟨⟨⟨86400, 5775, 43200⟩, srv1Bytes⟩, [⟨⟨86400, 5776, 43200⟩, srv2Bytes⟩], by decide⟩

/-- Helper: draining the command queue never changes the closed flag. -/
theorem handle_command_foldl_closed (now : Nat) :
    ∀ (cmds : List SchedulerCommand) (st : TaskScheduleState),
      (cmds.foldl (handle_command now) st).closed = st.closed := by
  intro cmds
  induction cmds with
  | nil => intro st; rfl
  | cons c rest ih =>
    intro st
    rw [List.foldl_cons, ih]
    cases c <;> rfl

/-- C10 counterexample: the first poll does not always yield an item
before any fire, fire_in or fire_at call: if a Cancel command is
delivered first, the initial instant-fire flag is cleared and the first
poll is pending. -/
theorem scheduler_first_poll_claim_false : ¬ scheduler_first_poll_claim := by
  intro hclaim
  have h := hclaim [.Cancel] 0 (by
    intro c hc
    simp only [List.mem_singleton] at hc
    subst hc
    exact ⟨by simp, fun i => by simp⟩)
  exact absurd h (by decide)

/-- C10 amended: the first poll of a newly created TaskSchedule (no
command delivered yet, channel open) yields an item immediately; and
once every TaskHandle has been dropped (the channel is closed), any
poll yields end-of-stream rather than pending, whatever is queued. -/
theorem scheduler_poll_spec :
    (∀ now : Nat, (poll_next now TaskSchedule.new).1 = .readySome) ∧
    (∀ (now : Nat) (st : TaskScheduleState), st.closed = true →
      (poll_next now st).1 = .readyNone) := by
  constructor
  · intro now
    rfl
  · intro now st h
    unfold poll_next
    simp only [handle_command_foldl_closed]
    simp [h]

/-- Witness for C10 amended: at a concrete schedule state with the
channel closed, polling yields end-of-stream (and the fresh schedule
fires). -/
theorem scheduler_poll_spec_witness :
    (poll_next 0 TaskSchedule.new).1 = .readySome ∧
    (poll_next 0 ⟨none, true, [.Fire], true⟩).1 = .readyNone :=
  ⟨scheduler_poll_spec.1 0, scheduler_poll_spec.2 0 ⟨none, true, [.Fire], true⟩ rfl⟩

/-- C2 counterexample: expire_all does not remove every microdescriptor
unlisted for 90 days: with now = 2026-10-12, a microdescriptor last
listed 2026-07-13 (91 days earlier) survives, because the SQL cutoff
datetime(now, "-3 months") is 2026-07-12, 92 days before now. -/
theorem sqlite_expiry_claim_false : ¬ sqlite_expiry_claim := by
  intro hclaim
  have h := (hclaim c2Store ⟨2026, 10, 12⟩).2.2 ⟨1, ⟨2026, 7, 13⟩⟩ (by decide)
  have hmem : (⟨1, ⟨2026, 7, 13⟩⟩ : MicrodescRow) ∈
      (expire_all ⟨2026, 10, 12⟩ c2Store).microdescs := by decide
  exact absurd (h.mp hmem) (by decide)

/-- C2 amended: expire_all removes exactly the stale entries, where a
consensus is stale when its valid_until is over 2 days past, a
certificate when it is past its expiry, a microdescriptor when its
last-listed date is before now minus 3 calendar months (the SQLite
datetime(now, "-3 months") cutoff), and an external document when it is
past its expiry; everything else is retained. -/
theorem expire_all_spec (st : SqliteStoreState) (now : Date) :
    (∀ r, r ∈ (expire_all now st).consensuses ↔
      r ∈ st.consensuses ∧ dateLt r.valid_until (subTwoDays now) = false) ∧
    (∀ r, r ∈ (expire_all now st).authcerts ↔
      r ∈ st.authcerts ∧ dateLt r.expires now = false) ∧
    (∀ r, r ∈ (expire_all now st).microdescs ↔
      r ∈ st.microdescs ∧ dateLt r.last_listed (subThreeMonths now) = false) ∧
    (∀ r, r ∈ (expire_all now st).extdocs ↔
      r ∈ st.extdocs ∧ dateLt r.expires now = false) := by
  refine ⟨?_, ?_, ?_, ?_⟩ <;>
    · intro r
      simp [expire_all, List.mem_filter]

/-- Helper: chunksOfGo concatenates back to the original list when the
fuel is at least the length of the list. -/
theorem chunksOfGo_flatten {α : Type} (k : Nat) (hk : k ≠ 0) :
    ∀ (fuel : Nat) (l : List α), l.length ≤ fuel → (chunksOfGo k fuel l).flatten = l := by
  intro fuel
  induction fuel with
  | zero =>
    intro l hl
    have hnil : l = [] := by
      cases l with
      | nil => rfl
      | cons a t => simp at hl
    subst hnil
    rfl
  | succ n ih =>
    intro l hl
    cases l with
    | nil => rfl
    | cons a t =>
      simp only [chunksOfGo, List.isEmpty_cons, Bool.false_eq_true, if_false,
        List.flatten_cons]
      have hlc : t.length + 1 ≤ n + 1 := by simpa using hl
      rw [ih (List.drop k (a :: t)) (by
        simp only [List.length_drop, List.length_cons]
        omega)]
      exact List.take_append_drop k (a :: t)

/-- Helper: every chunk produced by chunksOfGo is nonempty and has at
most k elements. -/
theorem chunksOfGo_mem {α : Type} (k : Nat) (hk : k ≠ 0) :
    ∀ (fuel : Nat) (l : List α), ∀ c ∈ chunksOfGo k fuel l, c.length ≤ k ∧ c ≠ [] := by
  intro fuel
  induction fuel with
  | zero =>
    intro l c hc
    simp [chunksOfGo] at hc
  | succ n ih =>
    intro l c hc
    cases l with
    | nil => simp [chunksOfGo] at hc
    | cons a t =>
      simp only [chunksOfGo, List.isEmpty_cons, Bool.false_eq_true, if_false,
        List.mem_cons] at hc
      rcases hc with hc | hc
      · subst hc
        constructor
        · simp only [List.length_take]
          omega
        · simp only [ne_eq, List.take_eq_nil_iff]
          push_neg
          exact ⟨hk, by simp⟩
      · exact ih _ c hc

/-- Helper: chunksOf concatenates back to the original list. -/
theorem chunksOf_flatten {α : Type} (k : Nat) (hk : k ≠ 0) (l : List α) :
    (chunksOf k l).flatten = l := by
  unfold chunksOf
  rw [if_neg hk]
  exact chunksOfGo_flatten k hk l.length l le_rfl

/-- Helper: every chunk of chunksOf is nonempty with at most k elements. -/
theorem chunksOf_mem {α : Type} (k : Nat) (hk : k ≠ 0) (l : List α) :
    ∀ c ∈ chunksOf k l, c.length ≤ k ∧ c ≠ [] := by
  unfold chunksOf
  rw [if_neg hk]
  exact chunksOfGo_mem k hk l.length l

/-- C6: for every non-empty list of missing digests, download_mds issues
its requests over the sorted digest list split into chunks of size
min(500, (len+2)/3): the chunks concatenate to an ascending permutation
of the input, every request carries at most 500 (and at least one)
digests, and at most n_parallel_requests = 4 requests are in flight at
once. -/
theorem download_mds_spec (missing : List Nat) (h : missing ≠ []) :
    (download_mds_chunks missing).flatten.Perm missing ∧
    List.Sorted (· ≤ ·) (download_mds_chunks missing).flatten ∧
    (∀ c ∈ download_mds_chunks missing, c.length ≤ 500 ∧ c ≠ []) ∧
    n_parallel_requests = 4 := by
  have hne : missing.isEmpty = false := by
    cases missing with
    | nil => exact absurd rfl h
    | cons a t => rfl
  have hlen : 0 < missing.length := List.length_pos.mpr h
  have hk : min 500 ((missing.length + 2) / 3) ≠ 0 := by omega
  have hchunks : download_mds_chunks missing =
      chunksOf (min 500 ((missing.length + 2) / 3)) (missing.insertionSort (· ≤ ·)) := by
    unfold download_mds_chunks
    rw [hne]
    simp
  rw [hchunks, chunksOf_flatten _ hk]
  refine ⟨List.perm_insertionSort _ _, List.sorted_insertionSort _ _, ?_, rfl⟩
  intro c hc
  have := chunksOf_mem _ hk _ c hc
  exact ⟨le_trans this.1 (min_le_left _ _), this.2⟩

/-- Witness for C6 at the concrete input [3, 1, 2]. -/
theorem download_mds_spec_witness :
    (download_mds_chunks [3, 1, 2]).flatten.Perm [3, 1, 2] ∧
    List.Sorted (· ≤ ·) (download_mds_chunks [3, 1, 2]).flatten ∧
    (∀ c ∈ download_mds_chunks [3, 1, 2], c.length ≤ 500 ∧ c ≠ []) ∧
    n_parallel_requests = 4 :=
  download_mds_spec [3, 1, 2] (by decide)

/-- C7 counterexample: when certificates are missing, advance does not
return the state unchanged: an unrecognized certificate in the state is
pruned away before SameState is returned. -/
theorem advance_same_state_claim_false : ¬ advance_same_state_claim := by
  intro hclaim
  have hne : (missing_certs c7Config c7Dir).1 ≠ [] := by
    rw [show (missing_certs c7Config c7Dir).1 = [⟨5, 5⟩] from rfl]
    simp
  have h := hclaim c7Config c7Dir hne
  rw [show UnvalidatedDir.advance c7Config c7Dir =
      .ok (.SameState { c7Dir with certs := [] }) from rfl] at h
  have h2 := congrArg (fun x =>
    match x with
    | .ok (.SameState d) => d.certs
    | _ => ([] : List AuthCert)) h
  exact absurd h2 (by decide)

/-- C7 amended: advance yields a PartialDir exactly when missing_certs
(the key_is_correct missing list, restricted to recognized authorities)
is empty for the pruned certificate list and the signature check then
succeeds; it errors exactly when nothing is missing but the signature
check fails; when certificates are missing it returns SameState with the
certificate list pruned to the configured authorities (otherwise
unchanged); and every PartialDir it constructs carries exactly the
pruned certificate list against which the signature was checked. -/
theorem advance_characterization (config : NetDirConfig) (dir : UnvalidatedDir) :
    ((∃ p, UnvalidatedDir.advance config dir = .ok (.NewState p)) ↔
      ((missing_certs config dir).1 = [] ∧
        (missing_certs config dir).2.consensus.signatureOk
          (missing_certs config dir).2.certs = true)) ∧
    (UnvalidatedDir.advance config dir = .error .signatureFailed ↔
      ((missing_certs config dir).1 = [] ∧
        (missing_certs config dir).2.consensus.signatureOk
          (missing_certs config dir).2.certs = false)) ∧
    (UnvalidatedDir.advance config dir =
        .ok (.SameState (missing_certs config dir).2) ↔
      (missing_certs config dir).1 ≠ []) ∧
    (∀ p, UnvalidatedDir.advance config dir = .ok (.NewState p) →
      p.dir = (missing_certs config dir).2.certs) := by
  rcases hmc : missing_certs config dir with ⟨missing, pruned⟩
  simp only [UnvalidatedDir.advance, hmc]
  by_cases hm : missing = []
  · subst hm
    cases hs : pruned.consensus.signatureOk pruned.certs
    · simp [hs]
    · simp [hs]
  · have hne : missing.isEmpty = false := by
      cases missing with
      | nil => exact absurd rfl hm
      | cons a t => rfl
    simp [hne, hm]

/-- Helper: the shape of an encoded relay cell when at most 505 bytes of
message are present: message, then exactly 4 zero bytes, then bytes from
the random generator. -/
theorem relaycell_encode_low (c : RelayCell) (pad : Nat → Nat)
    (h : c.encode_to_vec.length ≤ 505) :
    c.encode pad = .ok (c.encode_to_vec ++ List.replicate 4 0 ++
      (List.range (505 - c.encode_to_vec.length)).map (fun i => pad i &&& 255)) := by
  unfold RelayCell.encode
  rw [if_neg (by simp only [CELL_DATA_LEN]; omega)]
  rcases lt_or_eq_of_le h with hlt | heq
  · rw [if_pos (by simp only [CELL_DATA_LEN]; omega)]
    rw [show CELL_DATA_LEN = 509 from rfl]
    rw [show (509 : Nat) - (c.encode_to_vec.length + 4) = 505 - c.encode_to_vec.length
      from by omega]
    rw [List.take_append_eq_append_take,
      List.take_of_length_le (Nat.le_add_right _ 4), List.take_replicate]
    rw [show c.encode_to_vec.length + 4 - c.encode_to_vec.length = 4 from by omega]
    rw [show min 4 (509 - c.encode_to_vec.length) = 4 from by omega]
  · rw [if_neg (by simp only [CELL_DATA_LEN]; omega)]
    rw [show CELL_DATA_LEN = 509 from rfl, ← heq]
    rw [show c.encode_to_vec.length - c.encode_to_vec.length = 0 from by omega]
    rw [show (509 : Nat) - c.encode_to_vec.length = 4 from by omega]
    simp [List.range_zero]

/-- Helper: the shape of an encoded relay cell when the message is
longer than 505 bytes: message, then only zero bytes, no randomness. -/
theorem relaycell_encode_high (c : RelayCell) (pad : Nat → Nat)
    (h1 : 505 < c.encode_to_vec.length) (h2 : c.encode_to_vec.length ≤ CELL_DATA_LEN) :
    c.encode pad = .ok (c.encode_to_vec ++
      List.replicate (CELL_DATA_LEN - c.encode_to_vec.length) 0) := by
  unfold RelayCell.encode
  rw [if_neg (by omega), if_neg (by simp only [CELL_DATA_LEN]; omega)]

/-- C3 counterexample: a Data message with a 496-byte body encodes to
507 bytes, so only 2 zero bytes follow it and no random padding at all
is added; the claimed at-least-4-zeros-then-random layout is false. -/
theorem relaycell_padding_claim_false : ¬ relaycell_padding_claim := by
  intro hclaim
  have h := hclaim ⟨0, .Data (List.replicate 496 1)⟩ (fun _ => 1) (by decide)
  exact absurd h (by decide)

/-- C3 amended: when the encoded message is at most 505 bytes, the body
is the message, exactly 4 zero bytes, then bytes drawn from the random
generator up to 509 bytes; when it is 506 to 509 bytes, the message is
followed only by zero bytes and no random padding is added; in both
cases the body is exactly 509 bytes. -/
theorem relaycell_encode_spec (c : RelayCell) (pad : Nat → Nat)
    (h : c.encode_to_vec.length ≤ CELL_DATA_LEN) :
    (c.encode_to_vec.length ≤ 505 →
      c.encode pad = .ok (c.encode_to_vec ++ List.replicate 4 0 ++
        (List.range (505 - c.encode_to_vec.length)).map (fun i => pad i &&& 255))) ∧
    (505 < c.encode_to_vec.length →
      c.encode pad = .ok (c.encode_to_vec ++
        List.replicate (CELL_DATA_LEN - c.encode_to_vec.length) 0)) ∧
    (∀ b, c.encode pad = .ok b → b.length = CELL_DATA_LEN) := by
  refine ⟨fun hle => relaycell_encode_low c pad hle,
    fun hgt => relaycell_encode_high c pad hgt h, ?_⟩
  intro b hb
  rcases le_or_lt c.encode_to_vec.length 505 with hle | hgt
  · rw [relaycell_encode_low c pad hle] at hb
    have hb' := Except.ok.inj hb
    subst hb'
    simp only [List.length_append, List.length_replicate, List.length_map,
      List.length_range, CELL_DATA_LEN]
    omega
  · rw [relaycell_encode_high c pad hgt h] at hb
    have hb' := Except.ok.inj hb
    subst hb'
    simp only [List.length_append, List.length_replicate, CELL_DATA_LEN]
    simp only [CELL_DATA_LEN] at h
    omega

/-- Witness for C3 amended, at a 3-byte Data message and the constant
random stream 7. -/
theorem relaycell_encode_spec_witness :
    ((RelayCell.mk 5 (.Data [1, 2, 3])).encode_to_vec.length ≤ 505 →
      (RelayCell.mk 5 (.Data [1, 2, 3])).encode (fun _ => 7) =
        .ok ((RelayCell.mk 5 (.Data [1, 2, 3])).encode_to_vec ++ List.replicate 4 0 ++
          (List.range (505 - (RelayCell.mk 5 (.Data [1, 2, 3])).encode_to_vec.length)).map
            (fun i => (fun _ => 7) i &&& 255))) ∧
    (505 < (RelayCell.mk 5 (.Data [1, 2, 3])).encode_to_vec.length →
      (RelayCell.mk 5 (.Data [1, 2, 3])).encode (fun _ => 7) =
        .ok ((RelayCell.mk 5 (.Data [1, 2, 3])).encode_to_vec ++
          List.replicate (CELL_DATA_LEN -
            (RelayCell.mk 5 (.Data [1, 2, 3])).encode_to_vec.length) 0)) ∧
    (∀ b, (RelayCell.mk 5 (.Data [1, 2, 3])).encode (fun _ => 7) = .ok b →
      b.length = CELL_DATA_LEN) :=
  relaycell_encode_spec (RelayCell.mk 5 (.Data [1, 2, 3])) (fun _ => 7) (by decide)

/-- Helper: bind on a successful Except is application. -/
theorem ebind_ok {ε α β : Type} (a : α) (f : α → Except ε β) :
    (Except.ok a : Except ε α) >>= f = f a := rfl

/-- Helper: map on a successful Except is application. -/
theorem emap_ok {ε α β : Type} (g : α → β) (a : α) :
    g <$> (Except.ok a : Except ε α) = .ok (g a) := rfl

/-- Helper: pure for Except is ok. -/
theorem epure_eq {ε α : Type} (a : α) : (pure a : Except ε α) = .ok a := rfl

/-- Helper: advancing past two explicit bytes. -/
theorem advanceR_cons2 (a b : Nat) (l : List Nat) :
    advanceR 2 (a :: b :: l) = .ok ((), l) := by
  unfold advanceR
  rw [if_neg (by simp only [List.length_cons]; omega)]
  rfl

/-- Helper: advancing past four explicit bytes. -/
theorem advanceR_cons4 (a b c d : Nat) (l : List Nat) :
    advanceR 4 (a :: b :: c :: d :: l) = .ok ((), l) := by
  unfold advanceR
  rw [if_neg (by simp only [List.length_cons]; omega)]
  rfl

/-- Helper: taking two explicit bytes. -/
theorem takeBytes_cons2 (a b : Nat) (l : List Nat) :
    takeBytes 2 (a :: b :: l) = .ok ([a, b], l) := by
  unfold takeBytes
  rw [if_neg (by simp only [List.length_cons]; omega)]
  rfl

/-- Helper: reading a big-endian u16 from two explicit bytes. -/
theorem takeU16_cons (a b : Nat) (l : List Nat) :
    takeU16 (a :: b :: l) = .ok (a * 256 + b, l) := by
  simp [takeU16, takeBytes_cons2, bytesToNatBE, ebind_ok]

/-- Helper: the two big-endian bytes of a u16 recombine to the value. -/
theorem u16_roundtrip (n : Nat) (h : n < 65536) :
    ((n >>> 8) &&& 255) * 256 + (n &&& 255) = n := by
  rw [and255_eq_mod, and255_eq_mod, Nat.shiftRight_eq_div_pow]
  rw [show (2 : Nat) ^ 8 = 256 from by norm_num]
  omega

/-- Helper: writeU16 as its two explicit bytes. -/
theorem writeU16_eq (n : Nat) : writeU16 n = [(n >>> 8) &&& 255, n &&& 255] := by
  simp [writeU16, writeBE, List.range_succ]

/-- Helper: the explicit byte layout of an encoded relay cell. -/
theorem encode_to_vec_mk (sid : Nat) (m : RelayMsg) :
    (RelayCell.mk sid m).encode_to_vec = (m.get_cmd &&& 255) :: 0 :: 0 ::
      ((sid >>> 8) &&& 255) :: (sid &&& 255) :: 0 :: 0 :: 0 :: 0 ::
      ((m.encode_onto.length >>> 8) &&& 255) :: (m.encode_onto.length &&& 255) ::
      m.encode_onto := by
  simp [RelayCell.encode_to_vec, writeU16_eq]

/-- Helper: an encoded relay cell is 11 header bytes plus the message. -/
theorem encode_to_vec_length (sid : Nat) (m : RelayMsg) :
    (RelayCell.mk sid m).encode_to_vec.length = m.encode_onto.length + 11 := by
  rw [encode_to_vec_mk]
  simp only [List.length_cons]

/-- Helper: decoding an encoded relay cell followed by arbitrary extra
bytes recovers the cell, provided the stream ID and command byte are in
range, the length field fits a u16, and the message body re-parses to
itself. -/
theorem decode_encode_append (sid : Nat) (m : RelayMsg) (suffix : List Nat)
    (hsid : sid < 65536) (hcmd : m.get_cmd < 256) (hplen : m.encode_onto.length < 65536)
    (hrt : bodyRoundTripsB m = true) :
    RelayCell.decode ((RelayCell.mk sid m).encode_to_vec ++ suffix) = .ok ⟨sid, m⟩ := by
  obtain ⟨m', rest, hdec, hm⟩ : ∃ m' rest,
      RelayMsg.decode_from_reader m.get_cmd m.encode_onto = .ok (m', rest) ∧ m' = m := by
    unfold bodyRoundTripsB at hrt
    split at hrt
    next m' rest heq => exact ⟨m', rest, heq, of_decide_eq_true hrt⟩
    next => simp at hrt
  rw [hm] at hdec
  rw [encode_to_vec_mk]
  simp only [List.cons_append]
  unfold RelayCell.decode
  simp only [takeU8, ebind_ok, advanceR_cons2, takeU16_cons, advanceR_cons4]
  rw [show ((m.encode_onto.length >>> 8) &&& 255) * 256 + (m.encode_onto.length &&& 255) =
    m.encode_onto.length from u16_roundtrip _ hplen]
  rw [if_neg (by simp only [List.length_append]; omega)]
  rw [List.take_left' rfl]
  rw [show m.get_cmd &&& 255 = m.get_cmd from by
    rw [and255_eq_mod]; exact Nat.mod_eq_of_lt hcmd]
  rw [hdec]
  simp only [ebind_ok, epure_eq]
  rw [u16_roundtrip sid hsid]

/-- C8 counterexample: decode(encode(c)) = c fails as a universal law: a
SENDME with no digest re-parses as a SENDME with an empty digest, so the
decoded cell differs from the encoded one. -/
theorem relaycell_roundtrip_claim_false : ¬ relaycell_roundtrip_claim := by
  intro hclaim
  have h := hclaim ⟨0, .Sendme none⟩ (fun _ => 0) (by decide) (by decide)
  exact absurd h (by decide)

/-- C8 amended: decode(encode(c)) = c holds, for every choice of the
random padding bytes, for every well-formed relay cell whose message
body re-parses to itself (bodyRoundTripsB, true for Data and the other
common messages, but false e.g. for a digestless SENDME or for EXTEND2,
whose encoder omits the handshake length its decoder expects). -/
theorem relaycell_roundtrip (c : RelayCell) (pad : Nat → Nat)
    (hsid : c.streamid < 65536) (hcmd : c.body.get_cmd < 256)
    (hfit : c.encode_to_vec.length ≤ CELL_DATA_LEN)
    (hrt : bodyRoundTripsB c.body = true) :
    (c.encode pad).toOption.bind (fun b => (RelayCell.decode b).toOption) = some c := by
  rcases c with ⟨sid, m⟩
  dsimp only at hsid hcmd hrt
  have hplen : m.encode_onto.length < 65536 := by
    have hlen := encode_to_vec_length sid m
    simp only [CELL_DATA_LEN] at hfit
    omega
  obtain ⟨suffix, hb⟩ : ∃ suffix,
      (RelayCell.mk sid m).encode pad = .ok ((RelayCell.mk sid m).encode_to_vec ++ suffix) := by
    rcases le_or_lt (RelayCell.mk sid m).encode_to_vec.length 505 with hle | hgt
    · refine ⟨List.replicate 4 0 ++
        (List.range (505 - (RelayCell.mk sid m).encode_to_vec.length)).map
          (fun i => pad i &&& 255), ?_⟩
      rw [relaycell_encode_low _ pad hle, List.append_assoc]
    · exact ⟨_, relaycell_encode_high _ pad hgt hfit⟩
  rw [hb]
  simp only [Except.toOption, Option.bind]
  rw [decode_encode_append sid m suffix hsid hcmd hplen hrt]

/-- Witness for C8 amended, at a 3-byte Data message with stream ID 5
and the constant random stream 7. -/
theorem relaycell_roundtrip_witness :
    ((RelayCell.mk 5 (.Data [1, 2, 3])).encode (fun _ => 7)).toOption.bind
      (fun b => (RelayCell.decode b).toOption) = some (RelayCell.mk 5 (.Data [1, 2, 3])) :=
  relaycell_roundtrip (RelayCell.mk 5 (.Data [1, 2, 3])) (fun _ => 7)
    (by decide) (by decide) (by decide) (by decide)

/-- Witness for C7 amended, at the concrete configuration and state used
for the counterexample. -/
theorem advance_characterization_witness :
    ((∃ p, UnvalidatedDir.advance c7Config c7Dir = .ok (.NewState p)) ↔
      ((missing_certs c7Config c7Dir).1 = [] ∧
        (missing_certs c7Config c7Dir).2.consensus.signatureOk
          (missing_certs c7Config c7Dir).2.certs = true)) ∧
    (UnvalidatedDir.advance c7Config c7Dir = .error .signatureFailed ↔
      ((missing_certs c7Config c7Dir).1 = [] ∧
        (missing_certs c7Config c7Dir).2.consensus.signatureOk
          (missing_certs c7Config c7Dir).2.certs = false)) ∧
    (UnvalidatedDir.advance c7Config c7Dir =
        .ok (.SameState (missing_certs c7Config c7Dir).2) ↔
      (missing_certs c7Config c7Dir).1 ≠ []) ∧
    (∀ p, UnvalidatedDir.advance c7Config c7Dir = .ok (.NewState p) →
      p.dir = (missing_certs c7Config c7Dir).2.certs) :=
  advance_characterization c7Config c7Dir
